import Mathlib

/-!
Verification of the SATCOM_SIM DIM protocol core: the 3-byte packet codec
(`sendDAC` encode, `readByte` decode state machine), the channel table
(`r` / `updateR`), and the slew-limited move controller (`moveToTarget`).

All definitions are shallow embeddings of the Python sources:
  * `src/unnamed/part_000` (FSM Sine.py / FSM Slider.py sections), and
  * `src/old attempts/DIM GUI.py`.
Bytes and 16-bit values are `Nat` with explicit masks (`&&&`, `|||`, `>>>`,
`<<<`) mirroring the Python bit arithmetic.
-/

set_option maxRecDepth 8192

namespace DIM

/-- A decoded protocol packet: the `(d, channel, mode)` triple that
`readByte` hands to `updateR`.  `value` is the 16-bit data word. -/
structure Packet where
  value   : Nat
  channel : Nat
  mode    : Nat
deriving DecidableEq, Repr

/-! ### Encode (`sendDAC`, src/unnamed/part_000 lines 227-239)

    packet[2] = (d & 0xFF) | 0b10000000
    packet[1] = ((d >> 7) & 0xFF) | 0b10000000
    packet[0] = (d >> 14) & 0x03
    packet[0] |= (channel << 4)
    packet[0] |= (mode << 2)
-/

/-- Third wire byte: `(d & 0xFF) | 0b10000000`. -/
def encByte2 (d : Nat) : Nat := (d &&& 0xFF) ||| 0b10000000

/-- Second wire byte: `((d >> 7) & 0xFF) | 0b10000000`. -/
def encByte1 (d : Nat) : Nat := ((d >>> 7) &&& 0xFF) ||| 0b10000000

/-- First wire byte: `((d >> 14) & 0x03) | (channel << 4) | (mode << 2)`. -/
def encByte0 (d channel mode : Nat) : Nat :=
  (((d >>> 14) &&& 0x03) ||| (channel <<< 4)) ||| (mode <<< 2)

/-- The 3-byte frame written by `sendDAC d channel mode`. -/
def sendDACFrame (d channel mode : Nat) : List Nat :=
  [encByte0 d channel mode, encByte1 d, encByte2 d]

/-! ### Decode (`readByte`, src/unnamed/part_000 lines 203-225) -/

/-- `d = packet[0] & 3; d = (d<<7)|(packet[1]&0x7F); d = (d<<7)|(packet[2]&0x7F)`. -/
def decodeValue (p0 p1 p2 : Nat) : Nat :=
  (((p0 &&& 0b00000011) <<< 7 ||| (p1 &&& 0b01111111)) <<< 7) ||| (p2 &&& 0b01111111)

/-- `mode = (packet[0] >> 2) & 0b11`. -/
def decodeMode (p0 : Nat) : Nat := (p0 >>> 2) &&& 0b0000011

/-- `channel = (packet[0] >> 4) & 0b111`. -/
def decodeChannel (p0 : Nat) : Nat := (p0 >>> 4) &&& 0b00000111

/-- The decoder's mutable globals: `byteNumber`, the shared 3-byte `packet`
buffer, and `packetReady`. -/
structure DecState where
  byteNumber  : Nat
  packet0     : Nat
  packet1     : Nat
  packet2     : Nat
  packetReady : Bool
deriving DecidableEq, Repr

/-- `packetReady=False; byteNumber=0; packet=bytearray(3)`. -/
def initDecState : DecState := ⟨0, 0, 0, 0, false⟩

/-- One iteration of `readByte` on a single received byte `b`.  The Python
body is a sequence of `if` statements (not `elif`); the sequential updates
are threaded through `s` exactly as written. -/
def readByteStep (s : DecState) (b : Nat) : DecState × Option Packet :=
  let s := if s.byteNumber = 2 then { s with packet2 := b, packetReady := true } else s
  let s := if s.byteNumber = 1 then { s with packet1 := b, byteNumber := 2 } else s
  let s := if s.byteNumber = 0 then
             (if b &&& 0b10000000 = 0 then { s with packet0 := b, byteNumber := 1 } else s)
           else s
  if s.packetReady then
    ({ s with packetReady := false, byteNumber := 0 },
     some ⟨decodeValue s.packet0 s.packet1 s.packet2,
           decodeChannel s.packet0, decodeMode s.packet0⟩)
  else (s, none)

/-- Feeding a byte list to the decoder one byte at a time, collecting the
emitted packets in order. -/
def readByteRun (s : DecState) (bs : List Nat) : DecState × List Packet :=
  match bs with
  | [] => (s, [])
  | b :: rest =>
      let r := readByteStep s b
      let r2 := readByteRun r.1 rest
      (r2.1, r.2.toList ++ r2.2)

/-! ### Bit-arithmetic bridge lemmas -/

theorem and_255_eq (d : Nat) : d &&& 0xFF = d % 256 :=
  Nat.and_pow_two_sub_one_eq_mod d 8

theorem and_127_eq (d : Nat) : d &&& 0b01111111 = d % 128 :=
  Nat.and_pow_two_sub_one_eq_mod d 7

theorem and_3_eq (d : Nat) : d &&& 0b00000011 = d % 4 :=
  Nat.and_pow_two_sub_one_eq_mod d 2

theorem and_7_eq (d : Nat) : d &&& 0b00000111 = d % 8 :=
  Nat.and_pow_two_sub_one_eq_mod d 3

theorem shiftr_7 (d : Nat) : d >>> 7 = d / 128 := Nat.shiftRight_eq_div_pow d 7

theorem shiftr_14 (d : Nat) : d >>> 14 = d / 16384 := Nat.shiftRight_eq_div_pow d 14

/-- `x <<< k ||| y = x * 2^k + y` when `y < 2^k` (disjoint bit ranges). -/
theorem shiftLeft_lor_eq_add (x : Nat) {y k : Nat} (hy : y < 2 ^ k) :
    (x <<< k) ||| y = x * 2 ^ k + y := by
  apply Nat.eq_of_testBit_eq
  intro j
  rw [Nat.testBit_lor, Nat.testBit_shiftLeft, Nat.mul_comm,
      Nat.testBit_mul_pow_two_add x hy j]
  rcases Nat.lt_or_ge j k with hj | hj
  · have : ¬ j ≥ k := by omega
    simp [hj, this]
  · have hyb : y.testBit j = false :=
      Nat.testBit_lt_two_pow (lt_of_lt_of_le hy (Nat.pow_le_pow_right (by norm_num) hj))
    simp [hj, Nat.not_lt.mpr hj, hyb]

theorem lor_128_eq_add : ∀ x < 256, x ||| 128 = x % 128 + 128 := by decide

theorem lor_128_and_127 : ∀ x < 256, (x ||| 128) &&& 0b01111111 = x % 128 := by decide

theorem lor_128_and_128 : ∀ x < 256, (x ||| 128) &&& 0b10000000 ≠ 0 := by decide

theorem lor_128_lt_256 : ∀ x < 256, x ||| 128 < 256 := by decide

/-- Bit structure of the assembled first byte `a | (c << 4) | (m << 2)` for
in-range fields: it keeps bit 7 clear and the three fields decode back. -/
theorem byte0_spec : ∀ a < 4, ∀ c < 8, ∀ m < 4,
    ((a ||| (c <<< 4)) ||| (m <<< 2)) &&& 0b10000000 = 0 ∧
    ((a ||| (c <<< 4)) ||| (m <<< 2)) &&& 0b00000011 = a ∧
    decodeChannel ((a ||| (c <<< 4)) ||| (m <<< 2)) = c ∧
    decodeMode ((a ||| (c <<< 4)) ||| (m <<< 2)) = m := by decide

/-! ### Single-step behaviour of `readByte` -/

theorem step_sync (p0 p1 p2 b : Nat) (hb : b &&& 0b10000000 = 0) :
    readByteStep ⟨0, p0, p1, p2, false⟩ b = (⟨1, b, p1, p2, false⟩, none) := by
  simp [readByteStep, hb]

theorem step_skip (p0 p1 p2 b : Nat) (hb : b &&& 0b10000000 ≠ 0) :
    readByteStep ⟨0, p0, p1, p2, false⟩ b = (⟨0, p0, p1, p2, false⟩, none) := by
  simp [readByteStep, hb]

theorem step_mid (p0 p1 p2 b : Nat) :
    readByteStep ⟨1, p0, p1, p2, false⟩ b = (⟨2, p0, b, p2, false⟩, none) := by
  simp [readByteStep]

theorem step_last (p0 p1 p2 b : Nat) :
    readByteStep ⟨2, p0, p1, p2, false⟩ b =
      (⟨0, p0, p1, b, false⟩,
       some ⟨decodeValue p0 p1 b, decodeChannel p0, decodeMode p0⟩) := by
  simp [readByteStep]

theorem run_append (s : DecState) (bs cs : List Nat) :
    readByteRun s (bs ++ cs) =
      ((readByteRun (readByteRun s bs).1 cs).1,
       (readByteRun s bs).2 ++ (readByteRun (readByteRun s bs).1 cs).2) := by
  induction bs generalizing s with
  | nil => simp [readByteRun]
  | cons b rest ih => simp [readByteRun, ih]

/-- From the sync-awaiting state, any three bytes whose first byte has bit 7
clear are consumed as one frame and emit exactly one packet. -/
theorem run_triple (p0 p1 p2 x y z : Nat) (hx : x &&& 0b10000000 = 0) :
    readByteRun ⟨0, p0, p1, p2, false⟩ [x, y, z] =
      (⟨0, x, y, z, false⟩,
       [⟨decodeValue x y z, decodeChannel x, decodeMode x⟩]) := by
  simp [readByteRun, step_sync _ _ _ _ hx, step_mid, step_last]

/-- Decoding the three bytes built by `sendDAC` recovers the in-range
inputs, and the first frame byte has bit 7 clear. -/
theorem decode_encode (d c m : Nat) (hd : d < 65536) (hc : c < 8) (hm : m < 4) :
    encByte0 d c m &&& 0b10000000 = 0 ∧
    decodeValue (encByte0 d c m) (encByte1 d) (encByte2 d) = d ∧
    decodeChannel (encByte0 d c m) = c ∧
    decodeMode (encByte0 d c m) = m := by
  have ha : (d >>> 14) &&& 0x03 = d / 16384 % 4 := by rw [shiftr_14, and_3_eq]
  have haLt : d / 16384 % 4 < 4 := Nat.mod_lt _ (by norm_num)
  have hb0 : encByte0 d c m = ((d / 16384 % 4 ||| (c <<< 4)) ||| (m <<< 2)) := by
    rw [encByte0, ha]
  obtain ⟨h7, h3, hch, hmd⟩ := byte0_spec _ haLt c hc m hm
  refine ⟨by rw [hb0]; exact h7, ?_, by rw [hb0]; exact hch, by rw [hb0]; exact hmd⟩
  have h1mod : d / 128 % 256 < 256 := Nat.mod_lt _ (by norm_num)
  have h2mod : d % 256 < 256 := Nat.mod_lt _ (by norm_num)
  have hb1 : encByte1 d &&& 0b01111111 = d / 128 % 256 % 128 := by
    rw [encByte1, shiftr_7, and_255_eq]
    exact lor_128_and_127 _ h1mod
  have hb2 : encByte2 d &&& 0b01111111 = d % 256 % 128 := by
    rw [encByte2, and_255_eq]
    exact lor_128_and_127 _ h2mod
  rw [decodeValue, hb0, h3, hb1, hb2]
  rw [shiftLeft_lor_eq_add _ (show d / 128 % 256 % 128 < 2 ^ 7 by
        have := Nat.mod_lt (d / 128 % 256) (show 0 < 128 by norm_num); simpa using this)]
  rw [shiftLeft_lor_eq_add _ (show d % 256 % 128 < 2 ^ 7 by
        have := Nat.mod_lt (d % 256) (show 0 < 128 by norm_num); simpa using this)]
  have : (2 : Nat) ^ 7 = 128 := by norm_num
  rw [this]
  omega

/-- C1 — Round-trip: for every `value < 2^16`, `channel < 8`, `mode < 4`,
feeding the three bytes produced by `sendDAC` one at a time to the decoder
starting in the sync-awaiting state emits exactly one `Packet` carrying the
same value, channel and mode. -/
theorem C1_roundTrip (d c m : Nat) (hd : d < 65536) (hc : c < 8) (hm : m < 4) :
    (readByteRun initDecState (sendDACFrame d c m)).2 = [Packet.mk d c m] := by
  obtain ⟨h7, hv, hch, hmd⟩ := decode_encode d c m hd hc hm
  rw [initDecState, sendDACFrame, run_triple _ _ _ _ _ _ h7, hv, hch, hmd]

/-- C1 witness at a concrete in-range input. -/
theorem C1_roundTrip_witness :
    (readByteRun initDecState (sendDACFrame 12345 3 2)).2 = [Packet.mk 12345 3 2] :=
  C1_roundTrip 12345 3 2 (by norm_num) (by norm_num) (by norm_num)

/-- C2 counterexample — the spec's scenario bytes are wrong: `sendDAC 0x7FFF 0 1`
does not produce `[0x10, 0xFF, 0xFF]` (byte0 is `0b00000101 = 0x05`:
bits 15-14 of `0x7FFF` are `01` and mode 1 contributes `1 <<< 2`). -/
theorem C2_scenario_counterexample : sendDACFrame 0x7FFF 0 1 ≠ [0x10, 0xFF, 0xFF] := by
  decide

/-- C2 amended — `sendDAC 0x7FFF 0 1` produces the bytes `[0x05, 0xFF, 0xFF]`,
and feeding those three bytes to the decoder starting in the sync-awaiting
state emits exactly the packet `{value := 0x7FFF, channel := 0, mode := 1}`. -/
theorem C2_scenario_amended :
    sendDACFrame 0x7FFF 0 1 = [0x05, 0xFF, 0xFF] ∧
    (readByteRun initDecState [0x05, 0xFF, 0xFF]).2 = [Packet.mk 0x7FFF 0 1] := by
  decide

/-! ### Move controller (`moveToTarget`, src/old attempts/DIM GUI.py lines 194-215)

    stepSize=0xFF
    moveX=False; moveY=False
    if Xt!=Xa: moveX=True
    if Xt>Xa: Xa=Xa+min(stepSize,Xt-Xa)
    if Xt<Xa: Xa=Xa-min(stepSize,Xa-Xt)
    if Yt!=Ya: moveY=True
    if Yt>Ya: Ya=Ya+min(stepSize,Yt-Ya)
    if Yt<Ya: Ya=Ya-min(stepSize,Ya-Yt)
    if moveX and moveY: sendDAC(Xa,0,0); sendDAC(Ya,1,2)
    else:
        if moveX:sendDAC(Xa,0,1)
        if moveY:sendDAC(Ya,1,1)
    movesRemaining= moveX or moveY
-/

def stepSize : Nat := 0xFF

/-- Result of one `moveToTarget` tick: the updated axis positions, the
`(d, channel, mode)` triples passed to `sendDAC` in order, and the
`movesRemaining` flag it leaves behind. -/
structure MoveResult where
  Xa : Nat
  Ya : Nat
  sent : List (Nat × Nat × Nat)
  movesRemaining : Bool
deriving DecidableEq, Repr

/-- One `moveToTarget(Xt, Yt)` tick from current position `(Xa, Ya)`.  The
sequential Python `if`s are threaded through shadowed `let`s; the second
guard of each axis reads the already-updated position, exactly as in the
source (it can never fire after the first one did, since the first update
is clamped by `min`). -/
def moveToTarget (Xt Yt Xa Ya : Nat) : MoveResult :=
  let moveX := Xt ≠ Xa
  let Xa := if Xt > Xa then Xa + min stepSize (Xt - Xa) else Xa
  let Xa := if Xt < Xa then Xa - min stepSize (Xa - Xt) else Xa
  let moveY := Yt ≠ Ya
  let Ya := if Yt > Ya then Ya + min stepSize (Yt - Ya) else Ya
  let Ya := if Yt < Ya then Ya - min stepSize (Ya - Yt) else Ya
  let sent :=
    if moveX ∧ moveY then [(Xa, 0, 0), (Ya, 1, 2)]
    else (if moveX then [(Xa, 0, 1)] else []) ++ (if moveY then [(Ya, 1, 1)] else [])
  { Xa := Xa, Ya := Ya, sent := sent, movesRemaining := decide (moveX ∨ moveY) }

/-- Iterated ticks of `moveToTarget` with fixed targets, tracking only the
axis positions. -/
def moveIter (Xt Yt : Nat) : Nat → Nat × Nat → Nat × Nat
  | 0, s => s
  | n + 1, s =>
      let res := moveToTarget Xt Yt s.1 s.2
      moveIter Xt Yt n (res.Xa, res.Ya)

/-- C3 — Move atomicity: when both axes are off-target by more than one step,
a tick sends exactly one mode-2 frame preceded only by mode-0 frames and no
mode-1 frame; when exactly one axis is off-target it sends a single mode-1
frame for that axis; when neither is, it sends nothing. -/
theorem C3_atomicity (Xt Yt Xa Ya : Nat) :
    (stepSize < max Xt Xa - min Xt Xa → stepSize < max Yt Ya - min Yt Ya →
      ∃ pre last, (moveToTarget Xt Yt Xa Ya).sent = pre ++ [last] ∧
        (∀ p ∈ pre, p.2.2 = 0) ∧ last.2.2 = 2 ∧
        ∀ p ∈ (moveToTarget Xt Yt Xa Ya).sent, p.2.2 ≠ 1) ∧
    (Xt ≠ Xa → Yt = Ya →
      (moveToTarget Xt Yt Xa Ya).sent = [((moveToTarget Xt Yt Xa Ya).Xa, 0, 1)]) ∧
    (Xt = Xa → Yt ≠ Ya →
      (moveToTarget Xt Yt Xa Ya).sent = [((moveToTarget Xt Yt Xa Ya).Ya, 1, 1)]) ∧
    (Xt = Xa → Yt = Ya → (moveToTarget Xt Yt Xa Ya).sent = []) := by
  refine ⟨?_, ?_, ?_, ?_⟩
  · intro hX hY
    have hmx : Xt ≠ Xa := by omega
    have hmy : Yt ≠ Ya := by omega
    refine ⟨[((moveToTarget Xt Yt Xa Ya).Xa, 0, 0)],
            ((moveToTarget Xt Yt Xa Ya).Ya, 1, 2), ?_, ?_, rfl, ?_⟩
    · simp [moveToTarget, hmx, hmy]
    · intro p hp
      simp at hp
      subst hp
      rfl
    · intro p hp
      simp [moveToTarget, hmx, hmy] at hp ⊢
      rcases hp with h | h <;> rw [h] <;> simp
  · intro hmx hmy
    simp [moveToTarget, hmx, hmy]
  · intro hmx hmy
    simp [moveToTarget, hmx, hmy]
  · intro hmx hmy
    simp [moveToTarget, hmx, hmy]

/-- C3 witness at concrete inputs (both axes 1000 away from target). -/
theorem C3_atomicity_witness :
    ∃ pre last, (moveToTarget 1000 1000 0 0).sent = pre ++ [last] ∧
      (∀ p ∈ pre, p.2.2 = 0) ∧ last.2.2 = 2 ∧
      ∀ p ∈ (moveToTarget 1000 1000 0 0).sent, p.2.2 ≠ 1 :=
  (C3_atomicity 1000 1000 0 0).1 (by decide) (by decide)

/-- C4 — Slew limiting without overshoot: per axis, if the distance to target
exceeds `stepSize` one tick moves the current value by exactly `stepSize`
toward the target (the remaining distance drops by exactly `stepSize`);
otherwise one tick lands exactly on the target. -/
theorem C4_slew (Xt Yt Xa Ya : Nat)
    (hXa : Xa < 65536) (hXt : Xt < 65536) (hYa : Ya < 65536) (hYt : Yt < 65536) :
    ((stepSize < max Xt Xa - min Xt Xa →
        max (moveToTarget Xt Yt Xa Ya).Xa Xa - min (moveToTarget Xt Yt Xa Ya).Xa Xa
          = stepSize ∧
        max Xt (moveToTarget Xt Yt Xa Ya).Xa - min Xt (moveToTarget Xt Yt Xa Ya).Xa
          = (max Xt Xa - min Xt Xa) - stepSize) ∧
     (max Xt Xa - min Xt Xa ≤ stepSize → (moveToTarget Xt Yt Xa Ya).Xa = Xt)) ∧
    ((stepSize < max Yt Ya - min Yt Ya →
        max (moveToTarget Xt Yt Xa Ya).Ya Ya - min (moveToTarget Xt Yt Xa Ya).Ya Ya
          = stepSize ∧
        max Yt (moveToTarget Xt Yt Xa Ya).Ya - min Yt (moveToTarget Xt Yt Xa Ya).Ya
          = (max Yt Ya - min Yt Ya) - stepSize) ∧
     (max Yt Ya - min Yt Ya ≤ stepSize → (moveToTarget Xt Yt Xa Ya).Ya = Yt)) := by
  have hX : (moveToTarget Xt Yt Xa Ya).Xa =
      (let a := if Xt > Xa then Xa + min stepSize (Xt - Xa) else Xa
       if Xt < a then a - min stepSize (a - Xt) else a) := by
    simp [moveToTarget]
  have hY : (moveToTarget Xt Yt Xa Ya).Ya =
      (let a := if Yt > Ya then Ya + min stepSize (Yt - Ya) else Ya
       if Yt < a then a - min stepSize (a - Yt) else a) := by
    simp [moveToTarget]
  rw [stepSize] at *
  constructor
  · rw [hX]
    simp only []
    constructor <;> intro h <;> split_ifs <;> omega
  · rw [hY]
    simp only []
    constructor <;> intro h <;> split_ifs <;> omega

/-- C4 witness at concrete inputs: X far from target, Y close. -/
theorem C4_slew_witness :
    ((255 < max 1000 0 - min 1000 0 →
        max (moveToTarget 1000 60 0 50).Xa 0 - min (moveToTarget 1000 60 0 50).Xa 0 = 255 ∧
        max 1000 (moveToTarget 1000 60 0 50).Xa - min 1000 (moveToTarget 1000 60 0 50).Xa
          = (max 1000 0 - min 1000 0) - 255) ∧
     (max 1000 0 - min 1000 0 ≤ 255 → (moveToTarget 1000 60 0 50).Xa = 1000)) ∧
    ((255 < max 60 50 - min 60 50 →
        max (moveToTarget 1000 60 0 50).Ya 50 - min (moveToTarget 1000 60 0 50).Ya 50 = 255 ∧
        max 60 (moveToTarget 1000 60 0 50).Ya - min 60 (moveToTarget 1000 60 0 50).Ya
          = (max 60 50 - min 60 50) - 255) ∧
     (max 60 50 - min 60 50 ≤ 255 → (moveToTarget 1000 60 0 50).Ya = 60)) := by
  have h := C4_slew 1000 60 0 50 (by norm_num) (by norm_num) (by norm_num) (by norm_num)
  simpa [stepSize] using h

/-- One tick on the diagonal toward `(0xFFFF, 0xFFFF)` advances both axes by
`stepSize`, clamped at the target. -/
theorem moveToTarget_diag (x : Nat) (hx : x ≤ 65535) :
    (moveToTarget 65535 65535 x x).Xa = min (x + stepSize) 65535 ∧
    (moveToTarget 65535 65535 x x).Ya = min (x + stepSize) 65535 := by
  constructor <;> (simp [moveToTarget, stepSize]; split_ifs <;> omega)

/-- Closed form of the square-drawing scenario: `k` diagonal ticks from
`(x, x)` reach `min (x + stepSize * k) 0xFFFF` on both axes. -/
theorem moveIter_diag : ∀ k x, x ≤ 65535 →
    moveIter 65535 65535 k (x, x) =
      (min (x + stepSize * k) 65535, min (x + stepSize * k) 65535) := by
  intro k
  induction k with
  | zero =>
      intro x hx
      simp only [moveIter, Nat.mul_zero, Nat.add_zero]
      rw [Nat.min_eq_left hx]
  | succ n ih =>
      intro x hx
      obtain ⟨hXa, hYa⟩ := moveToTarget_diag x hx
      have hstep : moveIter 65535 65535 (n + 1) (x, x) =
          moveIter 65535 65535 n
            ((moveToTarget 65535 65535 x x).Xa, (moveToTarget 65535 65535 x x).Ya) := rfl
      rw [hstep, hXa, hYa, ih _ (by omega)]
      have : min (x + stepSize) 65535 + stepSize * n = x + stepSize * (n + 1) ∨
          (65535 ≤ min (x + stepSize) 65535 + stepSize * n ∧ 65535 ≤ x + stepSize * (n + 1)) := by
        rw [stepSize] at *; omega
      rcases this with h | h
      · rw [h]
      · rw [Nat.min_eq_right (by omega), Nat.min_eq_right (by omega)]

/-- C8 — On-target reporting: `movesRemaining` is `true` exactly when some
axis had to move this tick, and from `(0, 0)` toward `(0xFFFF, 0xFFFF)` with
`stepSize = 0xFF` exactly `257` ticks are needed to bring both axes on
target (no smaller number of ticks does). -/
theorem C8_onTarget :
    (∀ Xt Yt Xa Ya,
      (moveToTarget Xt Yt Xa Ya).movesRemaining = true ↔ (Xt ≠ Xa ∨ Yt ≠ Ya)) ∧
    moveIter 65535 65535 257 (0, 0) = (65535, 65535) ∧
    (∀ k, k < 257 → moveIter 65535 65535 k (0, 0) ≠ (65535, 65535)) := by
  refine ⟨?_, ?_, ?_⟩
  · intro Xt Yt Xa Ya
    simp [moveToTarget]
  · rw [moveIter_diag 257 0 (by norm_num)]
    norm_num [stepSize]
  · intro k hk
    rw [moveIter_diag k 0 (by norm_num)]
    have : stepSize * k < 65535 := by rw [stepSize]; omega
    simp only [Nat.zero_add, Nat.min_eq_left (Nat.le_of_lt this)]
    intro hcontra
    have := congrArg Prod.fst hcontra
    simp at this
    omega

/-- C8 witness: the reporting equivalence at a concrete state, and 256 ticks
do not suffice. -/
theorem C8_onTarget_witness :
    ((moveToTarget 65535 65535 0 0).movesRemaining = true ↔
      ((65535 : Nat) ≠ 0 ∨ (65535 : Nat) ≠ 0)) ∧
    moveIter 65535 65535 256 (0, 0) ≠ (65535, 65535) :=
  ⟨C8_onTarget.1 65535 65535 0 0, C8_onTarget.2.2 256 (by norm_num)⟩

/-! ### Frame streams and resynchronization -/

/-- A frame specification: the `(d, channel, mode)` arguments of one
`sendDAC` call. -/
def InRange (t : Nat × Nat × Nat) : Prop := t.1 < 65536 ∧ t.2.1 < 8 ∧ t.2.2 < 4

instance (t : Nat × Nat × Nat) : Decidable (InRange t) := by
  unfold InRange; infer_instance

/-- The wire bytes of one frame. -/
def frameOf (t : Nat × Nat × Nat) : List Nat := sendDACFrame t.1 t.2.1 t.2.2

/-- The packet a well-formed frame stands for. -/
def packetOf (t : Nat × Nat × Nat) : Packet := ⟨t.1, t.2.1, t.2.2⟩

/-- The byte stream of a sequence of frames. -/
def streamOf (l : List (Nat × Nat × Nat)) : List Nat := (l.map frameOf).flatten

theorem encByte0_and_128 (t : Nat × Nat × Nat) (ht : InRange t) :
    encByte0 t.1 t.2.1 t.2.2 &&& 0b10000000 = 0 :=
  (decode_encode t.1 t.2.1 t.2.2 ht.1 ht.2.1 ht.2.2).1

theorem encByte1_and_128 (d : Nat) : encByte1 d &&& 0b10000000 ≠ 0 := by
  rw [encByte1, shiftr_7, and_255_eq]
  exact lor_128_and_128 _ (Nat.mod_lt _ (by norm_num))

theorem encByte2_and_128 (d : Nat) : encByte2 d &&& 0b10000000 ≠ 0 := by
  rw [encByte2, and_255_eq]
  exact lor_128_and_128 _ (Nat.mod_lt _ (by norm_num))

/-- Running a whole well-formed frame from any sync-awaiting state emits
exactly its packet and returns to a sync-awaiting state. -/
theorem run_frame (t : Nat × Nat × Nat) (ht : InRange t) (p0 p1 p2 : Nat) :
    readByteRun ⟨0, p0, p1, p2, false⟩ (frameOf t) =
      (⟨0, encByte0 t.1 t.2.1 t.2.2, encByte1 t.1, encByte2 t.1, false⟩,
       [packetOf t]) := by
  obtain ⟨h7, hv, hch, hmd⟩ := decode_encode t.1 t.2.1 t.2.2 ht.1 ht.2.1 ht.2.2
  rw [frameOf, sendDACFrame, run_triple _ _ _ _ _ _ h7, hv, hch, hmd, packetOf]

/-- Running a stream of well-formed frames from any sync-awaiting state
emits exactly their packets in order and ends sync-awaiting. -/
theorem run_stream (l : List (Nat × Nat × Nat)) (hl : ∀ t ∈ l, InRange t) :
    ∀ p0 p1 p2 : Nat, ∃ q0 q1 q2,
      readByteRun ⟨0, p0, p1, p2, false⟩ (streamOf l) =
        (⟨0, q0, q1, q2, false⟩, l.map packetOf) := by
  induction l with
  | nil => intro p0 p1 p2; exact ⟨p0, p1, p2, rfl⟩
  | cons t rest ih =>
      intro p0 p1 p2
      have hst : streamOf (t :: rest) = frameOf t ++ streamOf rest := by
        simp [streamOf]
      obtain ⟨q0, q1, q2, hq⟩ :=
        ih (fun u hu => hl u (List.mem_cons_of_mem t hu))
          (encByte0 t.1 t.2.1 t.2.2) (encByte1 t.1) (encByte2 t.1)
      refine ⟨q0, q1, q2, ?_⟩
      rw [hst, run_append, run_frame t (hl t (List.mem_cons_self t rest)), hq]
      simp

/-- Consuming a single frame whose byte at index `j` was replaced by an
arbitrary byte `x`: the decoder emits at most one packet and is back in a
sync-awaiting state afterwards. -/
theorem run_corrupt_frame (t : Nat × Nat × Nat) (ht : InRange t)
    (j x p0 p1 p2 : Nat) (hj : j < 3) :
    ∃ q0 q1 q2 mid, mid.length ≤ 1 ∧
      readByteRun ⟨0, p0, p1, p2, false⟩ ((frameOf t).set j x) =
        (⟨0, q0, q1, q2, false⟩, mid) := by
  interval_cases j
  · -- byte0 replaced
    by_cases hx : x &&& 0b10000000 = 0
    · refine ⟨x, encByte1 t.1, encByte2 t.1,
        [⟨decodeValue x (encByte1 t.1) (encByte2 t.1), decodeChannel x, decodeMode x⟩],
        by simp, ?_⟩
      show readByteRun _ [x, encByte1 t.1, encByte2 t.1] = _
      rw [run_triple _ _ _ _ _ _ hx]
    · refine ⟨p0, p1, p2, [], by simp, ?_⟩
      show readByteRun _ [x, encByte1 t.1, encByte2 t.1] = _
      simp [readByteRun, step_skip _ _ _ _ hx,
            step_skip _ _ _ _ (encByte1_and_128 t.1),
            step_skip _ _ _ _ (encByte2_and_128 t.1)]
  · -- byte1 replaced: captured unconditionally
    refine ⟨encByte0 t.1 t.2.1 t.2.2, x, encByte2 t.1,
      [⟨decodeValue (encByte0 t.1 t.2.1 t.2.2) x (encByte2 t.1),
        decodeChannel (encByte0 t.1 t.2.1 t.2.2), decodeMode (encByte0 t.1 t.2.1 t.2.2)⟩],
      by simp, ?_⟩
    show readByteRun _ [encByte0 t.1 t.2.1 t.2.2, x, encByte2 t.1] = _
    rw [run_triple _ _ _ _ _ _ (encByte0_and_128 t ht)]
  · -- byte2 replaced: captured unconditionally
    refine ⟨encByte0 t.1 t.2.1 t.2.2, encByte1 t.1, x,
      [⟨decodeValue (encByte0 t.1 t.2.1 t.2.2) (encByte1 t.1) x,
        decodeChannel (encByte0 t.1 t.2.1 t.2.2), decodeMode (encByte0 t.1 t.2.1 t.2.2)⟩],
      by simp, ?_⟩
    show readByteRun _ [encByte0 t.1 t.2.1 t.2.2, encByte1 t.1, x] = _
    rw [run_triple _ _ _ _ _ _ (encByte0_and_128 t ht)]

/-- Running a stream of well-formed frames from a state that still expects
one byte of an earlier frame: the first frame (if any) is swallowed into one
garbage packet, and every later frame decodes correctly. -/
theorem run_stream_from_mid (post : List (Nat × Nat × Nat))
    (hpost : ∀ u ∈ post, InRange u) (a b c : Nat) :
    ∃ mid k, mid.length ≤ 1 ∧ k ≤ 1 ∧
      (readByteRun ⟨2, a, b, c, false⟩ (streamOf post)).2
        = mid ++ (post.map packetOf).drop k := by
  cases post with
  | nil => exact ⟨[], 0, by simp, by simp, by simp [streamOf, readByteRun]⟩
  | cons u rest =>
      have hrest : ∀ v ∈ rest, InRange v := fun v hv => hpost v (List.mem_cons_of_mem u hv)
      obtain ⟨q0, q1, q2, hq⟩ := run_stream rest hrest a b (encByte0 u.1 u.2.1 u.2.2)
      refine ⟨[⟨decodeValue a b (encByte0 u.1 u.2.1 u.2.2), decodeChannel a, decodeMode a⟩],
        1, by simp, by simp, ?_⟩
      have hst : streamOf (u :: rest)
          = encByte0 u.1 u.2.1 u.2.2 :: encByte1 u.1 :: encByte2 u.1 :: streamOf rest := by
        simp [streamOf, frameOf, sendDACFrame]
      rw [hst]
      simp [readByteRun, step_last, step_skip _ _ _ _ (encByte1_and_128 u.1),
            step_skip _ _ _ _ (encByte2_and_128 u.1), hq]

/-- Consuming a frame with one byte dropped, followed by a stream of
well-formed frames: at most one garbage packet is emitted and at most one
following frame is swallowed; everything after decodes correctly. -/
theorem run_drop_frame (t : Nat × Nat × Nat) (ht : InRange t)
    (post : List (Nat × Nat × Nat)) (hpost : ∀ u ∈ post, InRange u)
    (j p0 p1 p2 : Nat) (hj : j < 3) :
    ∃ mid k, mid.length ≤ 1 ∧ k ≤ 1 ∧
      (readByteRun ⟨0, p0, p1, p2, false⟩ ((frameOf t).eraseIdx j ++ streamOf post)).2
        = mid ++ (post.map packetOf).drop k := by
  interval_cases j
  · -- byte0 dropped: both continuation bytes are discarded in AwaitSync
    have h : (frameOf t).eraseIdx 0 = [encByte1 t.1, encByte2 t.1] := rfl
    obtain ⟨q0, q1, q2, hq⟩ := run_stream post hpost p0 p1 p2
    refine ⟨[], 0, by simp, by simp, ?_⟩
    rw [h]
    simp [readByteRun, step_skip _ _ _ _ (encByte1_and_128 t.1),
          step_skip _ _ _ _ (encByte2_and_128 t.1), hq]
  · -- byte1 dropped: byte2 is mistaken for byte1
    have h : (frameOf t).eraseIdx 1 = [encByte0 t.1 t.2.1 t.2.2, encByte2 t.1] := rfl
    obtain ⟨mid, k, hm, hk, hrun⟩ :=
      run_stream_from_mid post hpost (encByte0 t.1 t.2.1 t.2.2) (encByte2 t.1) p2
    refine ⟨mid, k, hm, hk, ?_⟩
    rw [h]
    simp only [List.cons_append, List.nil_append]
    simp [readByteRun, step_sync _ _ _ _ (encByte0_and_128 t ht), step_mid, hrun]
  · -- byte2 dropped: the next frame's byte0 completes this frame
    have h : (frameOf t).eraseIdx 2 = [encByte0 t.1 t.2.1 t.2.2, encByte1 t.1] := rfl
    obtain ⟨mid, k, hm, hk, hrun⟩ :=
      run_stream_from_mid post hpost (encByte0 t.1 t.2.1 t.2.2) (encByte1 t.1) p2
    refine ⟨mid, k, hm, hk, ?_⟩
    rw [h]
    simp only [List.cons_append, List.nil_append]
    simp [readByteRun, step_sync _ _ _ _ (encByte0_and_128 t ht), step_mid, hrun]

/-- C5 counterexample — a single dropped byte can lose more than one packet:
drop the last byte of the frame for `(0,0,0)` and follow it with the
well-formed frame for `(0,1,1)`.  The decoder emits only the garbage packet
`{20, 0, 0}`; the next well-formed frame after the disturbance does not
decode (its packet `{0, 1, 1}` never appears). -/
theorem C5_drop_counterexample :
    (readByteRun initDecState ((frameOf (0, 0, 0)).eraseIdx 2 ++ frameOf (0, 1, 1))).2
      = [Packet.mk 20 0 0] ∧
    Packet.mk 0 1 1 ∉
      (readByteRun initDecState ((frameOf (0, 0, 0)).eraseIdx 2 ++ frameOf (0, 1, 1))).2 := by
  decide

/-- C5 amended — Self-resynchronization, as the code actually behaves.
Corrupted byte: replacing any single byte of one frame in a well-formed
stream yields the packets of all earlier frames, then at most one garbage
packet, then the packets of all later frames, so at most one packet is lost
and the next well-formed frame decodes correctly.  Dropped byte: removing a
single byte of one frame yields the packets of all earlier frames, then at
most one garbage packet, then the packets of the later frames minus at most
the first of them — the disturbance can cost up to two packets, and the
stream resynchronizes at the second frame after it at the latest. -/
theorem C5_resync_amended :
    (∀ pre (t : Nat × Nat × Nat) post j x,
      (∀ u ∈ pre, InRange u) → InRange t → (∀ u ∈ post, InRange u) → j < 3 →
      ∃ mid, mid.length ≤ 1 ∧
        (readByteRun initDecState
            (streamOf pre ++ ((frameOf t).set j x ++ streamOf post))).2
          = pre.map packetOf ++ (mid ++ post.map packetOf)) ∧
    (∀ pre (t : Nat × Nat × Nat) post j,
      (∀ u ∈ pre, InRange u) → InRange t → (∀ u ∈ post, InRange u) → j < 3 →
      ∃ mid k, mid.length ≤ 1 ∧ k ≤ 1 ∧
        (readByteRun initDecState
            (streamOf pre ++ ((frameOf t).eraseIdx j ++ streamOf post))).2
          = pre.map packetOf ++ (mid ++ (post.map packetOf).drop k)) := by
  constructor
  · intro pre t post j x hpre ht hpost hj
    obtain ⟨q0, q1, q2, hq⟩ := run_stream pre hpre 0 0 0
    obtain ⟨r0, r1, r2, mid, hm, hcor⟩ := run_corrupt_frame t ht j x q0 q1 q2 hj
    obtain ⟨s0, s1, s2, hs⟩ := run_stream post hpost r0 r1 r2
    refine ⟨mid, hm, ?_⟩
    rw [show initDecState = ⟨0, 0, 0, 0, false⟩ from rfl, run_append, hq, run_append,
        hcor, hs]
  · intro pre t post j hpre ht hpost hj
    obtain ⟨q0, q1, q2, hq⟩ := run_stream pre hpre 0 0 0
    obtain ⟨mid, k, hm, hk, hdrop⟩ := run_drop_frame t ht post hpost j q0 q1 q2 hj
    refine ⟨mid, k, hm, hk, ?_⟩
    rw [show initDecState = ⟨0, 0, 0, 0, false⟩ from rfl, run_append, hq]
    simp [hdrop]

/-- C5 amended witness: both parts at a concrete disturbed stream. -/
theorem C5_resync_amended_witness :
    (∃ mid : List Packet, mid.length ≤ 1 ∧
      (readByteRun initDecState
          (streamOf [(1, 0, 0)] ++ ((frameOf (2, 1, 1)).set 1 7 ++ streamOf [(3, 2, 2)]))).2
        = [(1, 0, 0)].map packetOf ++ (mid ++ [(3, 2, 2)].map packetOf)) ∧
    (∃ mid k, List.length (α := Packet) mid ≤ 1 ∧ k ≤ 1 ∧
      (readByteRun initDecState
          (streamOf [(1, 0, 0)] ++ ((frameOf (2, 1, 1)).eraseIdx 2 ++ streamOf [(3, 2, 2)]))).2
        = [(1, 0, 0)].map packetOf ++ (mid ++ ([(3, 2, 2)].map packetOf).drop k)) :=
  ⟨C5_resync_amended.1 [(1, 0, 0)] (2, 1, 1) [(3, 2, 2)] 1 7
      (by decide) (by decide) (by decide) (by decide),
   C5_resync_amended.2 [(1, 0, 0)] (2, 1, 1) [(3, 2, 2)] 2
      (by decide) (by decide) (by decide) (by decide)⟩

/-! ### Channel table (`r` / `updateR`, src/unnamed/part_000 lines 192-201,
and src/old attempts/DIM GUI.py lines 120-138) -/

/-- The value column of the FSM Slider channel table `r`: four rows
(channels 0-3), initially unknown (`"?"`). -/
def rSlider : List (Option Nat) := [none, none, none, none]

/-- The value column of the DIM GUI channel table `r`: fourteen rows
(channels 0-7, quad-cell A0-A3, and the two requested positions). -/
def rGui : List (Option Nat) := List.replicate 14 none

/-- `updateR(d, channel, mode)` executes `r[channel][2] = d`.  A channel
with no table row raises `IndexError`, modelled as `none`; `mode` is not
used for the table itself. -/
def updateR (table : List (Option Nat)) (d channel mode : Nat) :
    Option (List (Option Nat)) :=
  if channel < table.length then some (table.set channel (some d)) else none

/-- The packet handling of `readByte`: every emitted packet is passed
straight to `updateR` — there is no channel-7 special case on receive. -/
def processPacket (table : List (Option Nat)) (p : Packet) :
    Option (List (Option Nat)) :=
  updateR table p.value p.channel p.mode

/-- C6 counterexample — a decoded channel-7 packet is not dispatched to any
command interpreter: `readByte` hands it to `updateR` like any other
packet, and on the slider's four-row table that write raises `IndexError`. -/
theorem C6_channel7_counterexample :
    (readByteRun initDecState (sendDACFrame 0 7 0)).2 = [Packet.mk 0 7 0] ∧
    processPacket rSlider (Packet.mk 0 7 0) = none := by decide

/-- C6 amended — on every decoded packet the handler calls `updateR`
unconditionally: channels 0-3 write the value into the table row (for every
mode, with no special treatment of channel 7), while channels 4-7 have no
row in the slider's table and raise `IndexError`.  The Initialize/Save
commands exist only on the send side: the GUI events emit the channel-7
frames `sendDAC(0,7,0)` / `sendDAC(0,7,1)` toward the device. -/
theorem C6_channel7_amended :
    (∀ p : Packet, p.channel < 4 →
        processPacket rSlider p = some (rSlider.set p.channel (some p.value))) ∧
    (∀ p : Packet, 4 ≤ p.channel → processPacket rSlider p = none) := by
  constructor
  · intro p hp
    simp only [processPacket, updateR, rSlider]
    rw [if_pos]
    simpa using hp
  · intro p hp
    simp only [processPacket, updateR, rSlider]
    rw [if_neg]
    simp
    omega

/-- C6 witness: a channel-2 packet updates row 2; a channel-7 packet
raises. -/
theorem C6_channel7_witness :
    processPacket rSlider (Packet.mk 5 2 1) = some (rSlider.set 2 (some 5)) ∧
    processPacket rSlider (Packet.mk 9 7 1) = none :=
  ⟨C6_channel7_amended.1 (Packet.mk 5 2 1) (by norm_num),
   C6_channel7_amended.2 (Packet.mk 9 7 1) (by norm_num)⟩

/-- C9 counterexample — the slider's channel table does not have an entry
for each of the 8 decodable channel addresses: it has 4 rows, and the
decodable channel-4 packet makes `updateR` raise `IndexError`. -/
theorem C9_safety_counterexample :
    (readByteRun initDecState (sendDACFrame 123 4 0)).2 = [Packet.mk 123 4 0] ∧
    rSlider.length = 4 ∧
    processPacket rSlider (Packet.mk 123 4 0) = none := by decide

/-- C9 amended — in the cited slider variant the table has 4 rows, so the
Channel Table update is defined exactly for decoded channels 0-3 and a
decoded packet with channel 4-7 raises; in the DIM GUI variant the table
has 14 rows and the update is defined for all 8 decodable channels. -/
theorem C9_safety_amended :
    rSlider.length = 4 ∧
    (∀ p : Packet, (processPacket rSlider p).isSome ↔ p.channel < 4) ∧
    rGui.length = 14 ∧
    (∀ p : Packet, p.channel < 8 → (processPacket rGui p).isSome) := by
  refine ⟨rfl, ?_, rfl, ?_⟩
  · intro p
    simp [processPacket, updateR, rSlider]
  · intro p hp
    simp only [processPacket, updateR, rGui]
    rw [if_pos]
    · simp
    · simp
      omega

/-- C9 witness: the definedness bound applied at channel 3 (in range) and
the GUI table at channel 7. -/
theorem C9_safety_witness :
    ((processPacket rSlider (Packet.mk 1 3 0)).isSome ↔ (3 : Nat) < 4) ∧
    (processPacket rGui (Packet.mk 1 7 0)).isSome :=
  ⟨C9_safety_amended.2.1 (Packet.mk 1 3 0),
   C9_safety_amended.2.2.2 (Packet.mk 1 7 0) (by norm_num)⟩

/-! ### Defensive masking on encode (C7) -/

/-- C7 counterexample — `sendDAC` does not mask `channel` to 3 bits before
building the frame: with `channel = 8` the frame differs from the frame of
the masked inputs, and byte0 comes out with bit 7 set. -/
theorem C7_masking_counterexample :
    sendDACFrame 0 8 0 ≠ sendDACFrame 0 (8 % 8) (0 % 4) ∧
    encByte0 0 8 0 &&& 0b10000000 ≠ 0 := by decide

/-- C7 amended — `value` is indeed truncated to 16 bits (the frame depends
only on `d % 2^16`), but `channel` and `mode` are used unmasked: only for
in-range `channel < 8` and `mode < 4` is byte0 guaranteed to keep bit 7
clear; out-of-range channel or mode bits leak into byte0. -/
theorem C7_masking_amended :
    (∀ d c m, sendDACFrame d c m = sendDACFrame (d % 65536) c m) ∧
    (∀ d c m, c < 8 → m < 4 → encByte0 d c m &&& 0b10000000 = 0) := by
  constructor
  · intro d c m
    have e2 : encByte2 d = encByte2 (d % 65536) := by
      simp only [encByte2, and_255_eq]
      have h : d % 256 = d % 65536 % 256 := by omega
      rw [h]
    have e1 : encByte1 d = encByte1 (d % 65536) := by
      simp only [encByte1, shiftr_7, and_255_eq]
      have h : d / 128 % 256 = d % 65536 / 128 % 256 := by omega
      rw [h]
    have e0 : encByte0 d c m = encByte0 (d % 65536) c m := by
      simp only [encByte0, shiftr_14, and_3_eq]
      have h : d / 16384 % 4 = d % 65536 / 16384 % 4 := by omega
      rw [h]
    rw [sendDACFrame, sendDACFrame, e0, e1, e2]
  · intro d c m hc hm
    have ha : (d >>> 14) &&& 0x03 = d / 16384 % 4 := by rw [shiftr_14, and_3_eq]
    obtain ⟨h7, _, _, _⟩ :=
      byte0_spec _ (Nat.mod_lt (d / 16384) (by norm_num)) c hc m hm
    rw [encByte0, ha]
    exact h7

/-- C7 witness: truncation at an out-of-range value, bit-7 clearance at
in-range channel and mode. -/
theorem C7_masking_witness :
    sendDACFrame 70000 1 1 = sendDACFrame (70000 % 65536) 1 1 ∧
    encByte0 70000 1 1 &&& 0b10000000 = 0 :=
  ⟨C7_masking_amended.1 70000 1 1,
   C7_masking_amended.2 70000 1 1 (by norm_num) (by norm_num)⟩

/-! ### Encode is not stateless: it shares the decoder's `packet` buffer (C10) -/

/-- `sendDAC` writes the three frame bytes into the same global `packet`
buffer in which the decoder assembles incoming frames
(src/unnamed/part_000 lines 230-234); `byteNumber` and `packetReady` are
left untouched. -/
def sendDACWrite (s : DecState) (d channel mode : Nat) : DecState :=
  { s with
    packet2 := encByte2 d
    packet1 := encByte1 d
    packet0 := encByte0 d channel mode }

/-- C10 counterexample — an encode-and-send between two decoder byte-feeds
does change the eventually emitted packet: after the decoder has captured
byte0 of the frame for `(0,0,0)`, an interleaved `sendDAC(0,1,0)`
overwrites the captured byte, and the decoder then emits `{0,1,0}` instead
of `{0,0,0}`. -/
theorem C10_stateless_counterexample :
    (readByteRun (sendDACWrite (readByteRun initDecState [0]).1 0 1 0) [128, 128]).2
      ≠ (readByteRun (readByteRun initDecState [0]).1 [128, 128]).2 := by decide

/-- Decoded output from a sync-awaiting, not-ready state does not depend on
the residual contents of the shared packet buffer (they are overwritten
before the next emit); more generally output only depends on the buffer
bytes the current state has already captured. -/
theorem run_output_congr : ∀ (bs : List Nat) (n p0 p1 p2 q0 q1 q2 : Nat),
    (n = 1 → p0 = q0) → (n = 2 → p0 = q0 ∧ p1 = q1) →
    (readByteRun ⟨n, p0, p1, p2, false⟩ bs).2
      = (readByteRun ⟨n, q0, q1, q2, false⟩ bs).2 := by
  intro bs
  induction bs with
  | nil => intro n p0 p1 p2 q0 q1 q2 h1 h2; rfl
  | cons b rest ih =>
      intro n p0 p1 p2 q0 q1 q2 h1 h2
      match n with
      | 0 =>
          by_cases hb : b &&& 0b10000000 = 0
          · rw [readByteRun, readByteRun, step_sync _ _ _ _ hb, step_sync _ _ _ _ hb]
            simp only []
            rw [ih 1 b p1 p2 b q1 q2 (fun _ => rfl) (by omega)]
          · rw [readByteRun, readByteRun, step_skip _ _ _ _ hb, step_skip _ _ _ _ hb]
            simp only []
            rw [ih 0 p0 p1 p2 q0 q1 q2 (by omega) (by omega)]
      | 1 =>
          rw [readByteRun, readByteRun, step_mid, step_mid]
          simp only []
          rw [ih 2 p0 b p2 q0 b q2 (by omega) (fun _ => ⟨h1 rfl, rfl⟩)]
      | 2 =>
          obtain ⟨hp0, hp1⟩ := h2 rfl
          rw [readByteRun, readByteRun, step_last, step_last, hp0, hp1]
      | (k + 3) =>
          have hstep : ∀ r0 r1 r2, readByteStep ⟨k + 3, r0, r1, r2, false⟩ b
              = (⟨k + 3, r0, r1, r2, false⟩, none) := by
            intro r0 r1 r2
            simp [readByteStep]
          rw [readByteRun, readByteRun, hstep, hstep]
          simp only []
          rw [ih (k + 3) p0 p1 p2 q0 q1 q2 (by omega) (by omega)]

/-- C10 amended — the frame bytes are a pure function of the `sendDAC`
arguments, but `sendDAC` is not stateless: it writes the frame into the
decoder's own `packet` buffer.  If the decoder is idle (awaiting sync with
no pending byte) an interleaved encode-and-send leaves all subsequently
decoded packets unchanged; if a frame is partially assembled, the captured
bytes are overwritten and the emitted packet can change (see the
counterexample). -/
theorem C10_stateless_amended (s : DecState) (hn : s.byteNumber = 0)
    (hr : s.packetReady = false) (d c m : Nat) (bs : List Nat) :
    (readByteRun (sendDACWrite s d c m) bs).2 = (readByteRun s bs).2 := by
  obtain ⟨n, p0, p1, p2, rdy⟩ := s
  simp only at hn hr
  subst hn hr
  exact run_output_congr bs 0 (encByte0 d c m) (encByte1 d) (encByte2 d) p0 p1 p2
    (by omega) (by omega)

/-- C10 witness: an idle-state interleaved send before a full frame. -/
theorem C10_stateless_witness :
    (readByteRun (sendDACWrite initDecState 5 1 1) [0, 128, 128]).2
      = (readByteRun initDecState [0, 128, 128]).2 :=
  C10_stateless_amended initDecState rfl rfl 5 1 1 [0, 128, 128]

end DIM
